import Mathlib

set_option maxHeartbeats 1000000

/-!
Shallow embedding of the zonemaster DNS zone-transfer responder: the
per-request protocol engine `processStream`, the response packet helper
`ResponsePacket`, the record batcher, the slave registry `setSlaves`,
the connection whitelist check and `notify`.

JS strings are modelled as lists of characters (`Str`), machine numbers
as `Nat`, resource records as an opaque type parameter `R` (the engine
treats record contents opaquely), and the caller-supplied producer
callbacks as oracle inputs describing what they do for one request.
Side effects (packets written, the log hook, producer invocations, the
error collaborator) are recorded as an event trace.
-/

/-- JS strings, modelled as lists of characters. -/
abbrev Str := List Char

namespace Zonemaster

/- Opcode constants (`Packet.consts.NAME_TO_OPCODE`) used by the source. -/
namespace OPCODE

def QUERY : Nat := 0

def NOTIFY : Nat := 4

end OPCODE

/- Response code constants (`Packet.consts.NAME_TO_RCODE`) used by the source. -/
namespace RCODE

def NOERROR : Nat := 0

def FORMERR : Nat := 1

def SERVFAIL : Nat := 2

def NOTIMP : Nat := 4

end RCODE

/- Query class constants (`Packet.consts.NAME_TO_QCLASS`) used by the source. -/
namespace QCLASS

def IN : Nat := 1

end QCLASS

/- Query type constants (`Packet.consts.NAME_TO_QTYPE`) used by the source. -/
namespace QTYPE

def SOA : Nat := 6

def IXFR : Nat := 251

def AXFR : Nat := 252

end QTYPE

/-- DNS message header; `new Packet()` initialises every field to zero. -/
structure Header where
  id : Nat := 0
  qr : Nat := 0
  aa : Nat := 0
  opcode : Nat := 0
  rcode : Nat := 0
deriving DecidableEq, Repr

/-- A question entry: `{class, type, name}` (JS field names `class`/`type`
are Lean keywords, hence `qclass`/`qtype`). -/
structure Question where
  qclass : Nat
  qtype : Nat
  name : Str
deriving DecidableEq, Repr

/-- An authority-section record; the only field the zonemaster contract ever
mentions is `serial` (read by IXFR body producers from
`req.authority[0].serial`). -/
structure AuthorityRR where
  serial : Nat
deriving DecidableEq, Repr

/-- A DNS message (`native-dns-packet` `Packet`), restricted to the parts the
source reads or writes.  `new Packet()` gives empty lists and a zero header. -/
structure Packet (R : Type) where
  header : Header := {}
  question : List Question := []
  answer : List R := []
  authority : List AuthorityRR := []
deriving DecidableEq

/-- The parameters object.  `batchSize = 0` models an unset (or zero, both
falsy) `params.batchSize`; the `hasLogFn` / `hasErrorFn` flags model whether
the optional `logFn` / `errorFn` callbacks are present. -/
structure Params where
  domain : Str
  batchSize : Nat := 0
  hasLogFn : Bool := false
  hasErrorFn : Bool := false
deriving DecidableEq, Repr

/-- JS `n || d` on numbers: `0` (also modelling an unset field) is falsy. -/
def jsOr (n d : Nat) : Nat := if n = 0 then d else n

/-- What the SOA producer `soaFn` calls back with for one request:
`callback(err)` or `callback(null, soaRecord)`. -/
inductive SoaOutcome (R : Type) where
  | err (e : Nat)
  | ok (soa : R)
deriving DecidableEq

/-- What the body producer `bodyFn` does for one request: the records it
passes to `emit`, in order, followed by its single `done(error)` call
(`none` = `done(null)`). -/
structure BodyBehavior (R : Type) where
  emits : List R
  done : Option Nat
deriving DecidableEq

/-- One data argument of a producer invocation (functions are opaque). -/
inductive ArgVal (R : Type) where
  | ctx
  | request (p : Packet R)
  | question (q : Question)
  | record (r : R)
  | serialOpt (s : Option Nat)
  | emitFn
  | doneFn
deriving DecidableEq

/-- Observable effects of processing requests: packets written to the
connection, the log hook firing, the producers being invoked, and the error
collaborator being called. -/
inductive Event (R : Type) where
  | wrote (pkt : Packet R)
  | logged
  | soaInvoked
  | bodyInvoked (args : List (ArgVal R))
  | errorCalled (e : Nat)
deriving DecidableEq

variable {R : Type}

/-- `class ResponsePacket extends Packet`: a fresh packet carrying the
request id with the qr (response) flag set. -/
def ResponsePacket (req : Packet R) : Packet R :=
  { header := { id := req.header.id, qr := 1 } }

/-- The first response packet of a request: a `ResponsePacket` with the
question list copied from the request (`pkt.question = req.question`). -/
def firstResponse (req : Packet R) : Packet R :=
  { ResponsePacket req with question := req.question }

/-- The FORMERR response (`pkt.header.rcode = RCODE.FORMERR`). -/
def formerrResponse (req : Packet R) : Packet R :=
  { firstResponse req with
      header := { (firstResponse req).header with rcode := RCODE.FORMERR } }

/-- The NOTIMP response (`pkt.header.rcode = RCODE.NOTIMP`). -/
def notimpResponse (req : Packet R) : Packet R :=
  { firstResponse req with
      header := { (firstResponse req).header with rcode := RCODE.NOTIMP } }

/-- The SOA response: the first response packet with the aa flag set and the
SOA record as sole answer. -/
def soaResponse (req : Packet R) (soa : R) : Packet R :=
  { firstResponse req with
      header := { (firstResponse req).header with aa := 1 },
      answer := [soa] }

/-- A batch flush packet: fresh `ResponsePacket`, aa set, answer = the batch. -/
def batchPacket (req : Packet R) (records : List R) : Packet R :=
  { ResponsePacket req with
      header := { (ResponsePacket req).header with aa := 1 },
      answer := records }

/-- The closing packet repeating the SOA record (same construction as a batch
flush with answer `[soa]`). -/
def closingResponse (req : Packet R) (soa : R) : Packet R :=
  batchPacket req [soa]

/-- The SERVFAIL packet built by `fail(err, isFirst)`: aa set, rcode
SERVFAIL, and the question list included only when `isFirst`. -/
def servfailPacket (req : Packet R) (isFirst : Bool) : Packet R :=
  { ResponsePacket req with
      header := { (ResponsePacket req).header with
                    aa := 1, rcode := RCODE.SERVFAIL },
      question := if isFirst then req.question else [] }

/-- `fail(err, isFirst)`: write the SERVFAIL packet, then call the error
collaborator when present. -/
def failEvents (params : Params) (req : Packet R) (isFirst : Bool) (e : Nat) :
    List (Event R) :=
  Event.wrote (servfailPacket req isFirst) ::
    (if params.hasErrorFn then [Event.errorCalled e] else [])

/-- The data arguments of the body-producer invocation
`params.bodyFn(context, req, soa, emitFn, bodyCb)`. -/
def bodyCallArgs (req : Packet R) (soa : R) : List (ArgVal R) :=
  [ArgVal.ctx, ArgVal.request req, ArgVal.record soa,
   ArgVal.emitFn, ArgVal.doneFn]

/-- The record batcher: each emitted record is pushed onto `pending`; when
`pending.length` reaches the batch limit `B` a batch packet is written and
`pending` is cleared.  Returns the leftover pending batch and the packets
written, in order. -/
def runEmits (B : Nat) (req : Packet R) :
    List R → List R → List R × List (Packet R)
  | pending, [] => (pending, [])
  | pending, r :: rs =>
    let p := pending ++ [r]
    if B ≤ p.length then
      let res := runEmits B req [] rs
      (res.1, batchPacket req p :: res.2)
    else
      runEmits B req p rs

/-- Placeholder question for `req.question[0]` (never used when the length
check has passed). -/
def defaultQuestion : Question := ⟨0, 0, []⟩

/-- One `readable.on('data')` activation of `processStream`: handle a single
inbound request given what the producers do, producing the event trace. -/
def handleRequest (params : Params) (req : Packet R)
    (soaOut : SoaOutcome R) (body : BodyBehavior R) : List (Event R) :=
  if req.question.length ≠ 1 then
    [Event.wrote (formerrResponse req)]
  else
    let q := req.question.headD defaultQuestion
    let logEvs : List (Event R) :=
      if params.hasLogFn then [Event.logged] else []
    if req.header.opcode ≠ OPCODE.QUERY ∨ q.qclass ≠ QCLASS.IN ∨
        q.name ≠ params.domain ∨
        (q.qtype ≠ QTYPE.SOA ∧ q.qtype ≠ QTYPE.AXFR ∧
          q.qtype ≠ QTYPE.IXFR) then
      logEvs ++ [Event.wrote (notimpResponse req)]
    else
      logEvs ++ [Event.soaInvoked] ++
        match soaOut with
        | SoaOutcome.err e => failEvents params req true e
        | SoaOutcome.ok soa =>
          Event.wrote (soaResponse req soa) ::
            if q.qtype ≠ QTYPE.AXFR ∧ q.qtype ≠ QTYPE.IXFR then []
            else
              Event.bodyInvoked (bodyCallArgs req soa) ::
                (let res := runEmits (jsOr params.batchSize 20) req [] body.emits
                 (res.2.map Event.wrote) ++
                   match body.done with
                   | some e => failEvents params req false e
                   | none =>
                     (if res.1.length ≠ 0 then
                        [Event.wrote (batchPacket req res.1)]
                      else []) ++
                       [Event.wrote (closingResponse req soa)])

/-- The whole `processStream` listener: requests on one connection are
handled strictly in sequence. -/
def processStream (params : Params)
    (msgs : List (Packet R × SoaOutcome R × BodyBehavior R)) : List (Event R) :=
  (msgs.map (fun m => handleRequest params m.1 m.2.1 m.2.2)).flatten

/-- Projection selecting written packets from an event. -/
def Event.writtenPacket : Event R → Option (Packet R)
  | Event.wrote p => some p
  | _ => none

/-- The packets written to the connection, in order. -/
def writtenOf (es : List (Event R)) : List (Packet R) :=
  es.filterMap Event.writtenPacket

/-- Projection selecting error-collaborator calls from an event. -/
def Event.errPayload : Event R → Option Nat
  | Event.errorCalled e => some e
  | _ => none

/-- The errors passed to the error collaborator, in order. -/
def errorsOf (es : List (Event R)) : List Nat :=
  es.filterMap Event.errPayload

/-- Projection selecting body-producer invocations from an event. -/
def Event.bodyArgs : Event R → Option (List (ArgVal R))
  | Event.bodyInvoked a => some a
  | _ => none

/-- The body-producer invocations, each with its argument list, in order. -/
def bodyCallsOf (es : List (Event R)) : List (List (ArgVal R)) :=
  es.filterMap Event.bodyArgs

/-- The body-producer invocation as the spec's words describe it
(`bodyFn(context, request, question, serialOrNone, emit, done)` together
with the soa record of rule 7, serial taken from `request.authority[0].serial`
for IXFR and a no-serial sentinel for AXFR); written only to be compared
with `bodyCallArgs`, the invocation the source performs. -/
def specBodyCallArgs (req : Packet R) (soa : R) : List (ArgVal R) :=
  let q := req.question.headD defaultQuestion
  [ArgVal.ctx, ArgVal.request req, ArgVal.question q, ArgVal.record soa,
   ArgVal.serialOpt
     (if q.qtype = QTYPE.IXFR then
        some ((req.authority.headD ⟨0⟩).serial)
      else none),
   ArgVal.emitFn, ArgVal.doneFn]

/-- `sanitizeAddress`: strip the IPv4-mapped-IPv6 `::ffff:` marker
(`addr.slice(0, 7) === '::ffff:' ? addr.slice(7) : addr`). -/
def sanitizeAddress (addr : Str) : Str :=
  if addr.take 7 = "::ffff:".data then addr.drop 7 else addr

/-- A slave entry: host, notify port, and (once resolved) the sanitized
addresses the host resolved to. -/
structure Slave where
  host : Str
  port : Nat
  addresses : List Str := []
deriving DecidableEq, Repr

instance : Inhabited Slave := ⟨⟨[], 0, []⟩⟩

/-- One element of the array given to `setSlaves`: a bare/`host@port` string
or a `{host, port}` object. -/
inductive SlaveInput where
  | str (s : Str)
  | obj (host : Str) (port : Nat)
deriving DecidableEq

/-- JS `s.split('@', 2)`: the text before the first `@`, and, when an `@` is
present, the text between the first and second `@`. -/
def splitHostPort (s : Str) : Str × Option Str :=
  let host := s.takeWhile (fun c => c ≠ '@')
  match s.dropWhile (fun c => c ≠ '@') with
  | [] => (host, none)
  | _ :: tl => (host, some (tl.takeWhile (fun c => c ≠ '@')))

/-- JS `parseInt(s, 10)` on the strings the source feeds it: the longest
leading run of decimal digits, `none` when there is none (NaN). -/
def jsParseInt (s : Str) : Option Nat :=
  let ds := s.takeWhile Char.isDigit
  if ds = [] then none
  else some (ds.foldl (fun acc c => acc * 10 + (c.toNat - 48)) 0)

/-- `parseInt(parts[1], 10) || 53`: NaN and 0 are falsy. -/
def portOr53 (p : Option Str) : Nat :=
  match p with
  | none => 53
  | some ps =>
    match jsParseInt ps with
    | none => 53
    | some n => if n = 0 then 53 else n

/-- The string/object expansion at the head of `setSlaves`. -/
def expandSlave : SlaveInput → Slave
  | SlaveInput.str s =>
    let hp := splitHostPort s
    { host := hp.1, port := portOr53 hp.2 }
  | SlaveInput.obj h p => { host := h, port := p }

/-- `slaves.map(...)`: expand every input entry. -/
def expandAll (inputs : List SlaveInput) : List Slave :=
  inputs.map expandSlave

/-- The `slavesByIp` object, modelled as the write sequence: a later write of
the same address overwrites an earlier one. -/
abbrev IpIndex := List (Str × Slave)

/-- Property lookup on the modelled object: the last write wins. -/
def indexLookup (idx : IpIndex) (a : Str) : Option Slave :=
  (idx.reverse.find? (fun p => p.1 = a)).map (fun p => p.2)

/-- `onComplete`'s index construction: iterate slaves in order, writing every
resolved address, later slaves overwriting earlier ones. -/
def buildIndex (slaves : List Slave) : IpIndex :=
  slaves.foldl
    (fun idx s => s.addresses.foldl (fun idx a => idx ++ [(a, s)]) idx) []

/-- The server's registry: `server.slaves` and `server.slavesByIp`. -/
structure ServerState where
  slaves : List Slave
  slavesByIp : IpIndex
deriving DecidableEq

/-- The fresh server: empty slave list, empty index. -/
def initialServerState : ServerState := ⟨[], []⟩

/-- A delivery of the `setSlaves` outcome: the callback being called (with
`none` for success), or, when no callback was given, an error event emitted
on the server. -/
inductive SSEvent where
  | cbCalled (e : Option Nat)
  | errorEmitted (e : Nat)
deriving DecidableEq, Repr

/-- `cb ? cb(err) : server.emit('error', err)`. -/
def deliverError (hasCb : Bool) (e : Nat) : SSEvent :=
  if hasCb then SSEvent.cbCalled (some e) else SSEvent.errorEmitted e

/-- The mutable state of one `setSlaves` call: the `pending` counter (−1 once
aborted), the `slave.addresses` fields written so far (keyed by entry index),
the server registry, and the deliveries made. -/
structure SSState where
  pending : Int
  resolved : Nat → Option (List Str)
  registry : ServerState
  events : List SSEvent

/-- `onComplete`: build the per-slave address lists and the IP index, commit
both registry fields, and call the callback when present. -/
def ssComplete (hasCb : Bool) (slaves : List Slave) (σ : SSState) : SSState :=
  let slaves' := (List.range slaves.length).map
    (fun i => { slaves.getD i default with addresses := (σ.resolved i).getD [] })
  { σ with
      registry := { slaves := slaves', slavesByIp := buildIndex slaves' },
      events := σ.events ++ if hasCb then [SSEvent.cbCalled none] else [] }

/-- The `dns.lookup` callback for entry `i`: ignore if aborted; on error,
abort and deliver the error; on success, record the sanitized addresses,
decrement `pending`, and complete when it reaches zero. -/
def ssStep (hasCb : Bool) (resolve : Str → Except Nat (List Str))
    (slaves : List Slave) (σ : SSState) (i : Nat) : SSState :=
  if σ.pending = -1 then σ
  else
    match resolve (slaves.getD i default).host with
    | Except.error e =>
      { σ with pending := -1, events := σ.events ++ [deliverError hasCb e] }
    | Except.ok addrs =>
      let σ' := { σ with
                    pending := σ.pending - 1,
                    resolved := fun k =>
                      if k = i then some (addrs.map sanitizeAddress)
                      else σ.resolved k }
      if σ'.pending = 0 then ssComplete hasCb slaves σ' else σ'

/-- One whole `setSlaves(inputs, cb)` call: expand the entries, start all the
lookups, and process their callbacks in arrival order `order` (any
permutation of the entry indices).  The immediate `if (pending === 0)
onComplete()` handles the empty list. -/
def runSetSlaves (st₀ : ServerState) (inputs : List SlaveInput)
    (resolve : Str → Except Nat (List Str)) (hasCb : Bool)
    (order : List Nat) : SSState :=
  let slaves := expandAll inputs
  let σ₀ : SSState :=
    { pending := (slaves.length : Int), resolved := fun _ => none,
      registry := st₀, events := [] }
  let σ₁ := if σ₀.pending = 0 then ssComplete hasCb slaves σ₀ else σ₀
  order.foldl (ssStep hasCb resolve slaves) σ₁

/-- A slave list with every entry's sanitized resolved addresses filled in. -/
def resolvedSlaves (resolve : Str → Except Nat (List Str))
    (slaves : List Slave) : List Slave :=
  slaves.map (fun s =>
    { s with addresses :=
        match resolve s.host with
        | Except.ok addrs => addrs.map sanitizeAddress
        | Except.error _ => [] })

/-- The slave list committed by a fully successful `setSlaves`: every entry
with its sanitized resolved addresses. -/
def committedSlaves (inputs : List SlaveInput)
    (resolve : Str → Except Nat (List Str)) : List Slave :=
  resolvedSlaves resolve (expandAll inputs)

/-- What happens to an accepted TCP connection. -/
inductive ConnOutcome where
  | destroyed
  | processed (slave : Slave)
deriving DecidableEq

/-- The `net.createServer` connection handler: sanitize the remote address,
look it up in `server.slavesByIp`; destroy the connection (nothing written,
no session) when no slave matches, otherwise proceed to request
processing for the matched slave. -/
def handleConnection (st : ServerState) (remoteAddress : Str) : ConnOutcome :=
  match indexLookup st.slavesByIp (sanitizeAddress remoteAddress) with
  | none => ConnOutcome.destroyed
  | some s => ConnOutcome.processed s

/-- The NOTIFY request packet `server.notify` builds: opcode NOTIFY, aa set,
single question `{class IN, type SOA, name: params.domain}`. -/
def notifyPacket (domain : Str) : Packet R :=
  { header := { opcode := OPCODE.NOTIFY, aa := 1 },
    question := [{ qclass := QCLASS.IN, qtype := QTYPE.SOA, name := domain }] }

/-- One outbound NOTIFY write: the target slave's host and port, and the
packet written on that connection. -/
structure NotifySend (R : Type) where
  host : Str
  port : Nat
  pkt : Packet R
deriving DecidableEq

/-- `server.notify()`: for every registered slave, connect to
`(slave.port, slave.host)` and write the one NOTIFY packet on connect;
nothing is awaited and nothing is retried (a connection error only emits an
error event). -/
def notifySends (st : ServerState) (domain : Str) : List (NotifySend R) :=
  st.slaves.map (fun s => { host := s.host, port := s.port,
                            pkt := notifyPacket domain })

/-! Helper lemmas about event traces. -/

lemma writtenOf_nil : writtenOf ([] : List (Event R)) = [] := rfl

lemma writtenOf_append (a b : List (Event R)) :
    writtenOf (a ++ b) = writtenOf a ++ writtenOf b :=
  List.filterMap_append a b _

lemma writtenOf_cons_wrote (p : Packet R) (es : List (Event R)) :
    writtenOf (Event.wrote p :: es) = p :: writtenOf es := rfl

lemma writtenOf_cons_logged (es : List (Event R)) :
    writtenOf (Event.logged :: es) = writtenOf es := rfl

lemma writtenOf_cons_soaInvoked (es : List (Event R)) :
    writtenOf (Event.soaInvoked :: es) = writtenOf es := rfl

lemma writtenOf_cons_bodyInvoked (a : List (ArgVal R)) (es : List (Event R)) :
    writtenOf (Event.bodyInvoked a :: es) = writtenOf es := rfl

lemma writtenOf_cons_errorCalled (e : Nat) (es : List (Event R)) :
    writtenOf (Event.errorCalled e :: es) = writtenOf es := rfl

lemma writtenOf_map_wrote (pks : List (Packet R)) :
    writtenOf (pks.map Event.wrote) = pks := by
  induction pks with
  | nil => rfl
  | cons p ps ih => simp [writtenOf, Event.writtenPacket] at ih ⊢; exact ih

/-! Fixtures used by the witnesses. -/

/-- The zone name used by the concrete witnesses. -/
def domW : Str := "z".data

def qSOA_W : Question := ⟨QCLASS.IN, QTYPE.SOA, domW⟩

def qAX_W : Question := ⟨QCLASS.IN, QTYPE.AXFR, domW⟩

def qIX_W : Question := ⟨QCLASS.IN, QTYPE.IXFR, domW⟩

def pW : Params :=
  { domain := domW, batchSize := 2, hasLogFn := false, hasErrorFn := true }

def reqSOA_W : Packet Nat :=
  { header := { id := 9, opcode := OPCODE.QUERY }, question := [qSOA_W] }

def reqAX_W : Packet Nat :=
  { header := { id := 3, opcode := OPCODE.QUERY }, question := [qAX_W] }

def reqIX_W : Packet Nat :=
  { header := { id := 4, opcode := OPCODE.QUERY }, question := [qIX_W],
    authority := [⟨42⟩] }

def req2Q_W : Packet Nat := { question := [qSOA_W, qSOA_W] }

def reqBad_W : Packet Nat :=
  { header := { id := 5, opcode := OPCODE.QUERY },
    question := [⟨QCLASS.IN, 1, domW⟩] }

/-- C6: a request whose question list does not contain exactly one entry is
answered by exactly one response: a FORMERR packet carrying the request's
id and its question list; no log hook fires and no producer is invoked. -/
theorem C6_formerr_only {R : Type} (params : Params) (req : Packet R)
    (soaOut : SoaOutcome R) (body : BodyBehavior R)
    (h : req.question.length ≠ 1) :
    handleRequest params req soaOut body = [Event.wrote (formerrResponse req)] ∧
    (formerrResponse req).header.rcode = RCODE.FORMERR ∧
    (formerrResponse req).header.id = req.header.id ∧
    (formerrResponse req).question = req.question ∧
    Event.logged ∉ handleRequest params req soaOut body ∧
    Event.soaInvoked ∉ handleRequest params req soaOut body ∧
    ∀ a, Event.bodyInvoked a ∉ handleRequest params req soaOut body := by
  have ht : handleRequest params req soaOut body =
      [Event.wrote (formerrResponse req)] := by
    simp [handleRequest, h]
  refine ⟨ht, rfl, rfl, rfl, ?_, ?_, ?_⟩ <;> simp [ht]

theorem C6_formerr_only_witness :
    req2Q_W.question.length ≠ 1 ∧
    handleRequest pW req2Q_W (SoaOutcome.ok 7) ⟨[], none⟩ =
      [Event.wrote (formerrResponse req2Q_W)] :=
  ⟨by decide, (C6_formerr_only pW req2Q_W _ _ (by decide)).1⟩

/-- C5: a single-question request failing validation (opcode not QUERY, or
class not IN, or name not exactly the configured zone, or type outside
{SOA, AXFR, IXFR}) gets exactly one response, a NOTIMP packet, and neither
producer is invoked. -/
theorem C5_notimp_on_invalid {R : Type} (params : Params) (req : Packet R)
    (soaOut : SoaOutcome R) (body : BodyBehavior R) (q : Question)
    (h1 : req.question = [q])
    (hbad : req.header.opcode ≠ OPCODE.QUERY ∨ q.qclass ≠ QCLASS.IN ∨
      q.name ≠ params.domain ∨
      (q.qtype ≠ QTYPE.SOA ∧ q.qtype ≠ QTYPE.AXFR ∧ q.qtype ≠ QTYPE.IXFR)) :
    handleRequest params req soaOut body =
      (if params.hasLogFn then [Event.logged] else []) ++
        [Event.wrote (notimpResponse req)] ∧
    (notimpResponse req).header.rcode = RCODE.NOTIMP ∧
    (notimpResponse req).header.id = req.header.id ∧
    Event.soaInvoked ∉ handleRequest params req soaOut body ∧
    ∀ a, Event.bodyInvoked a ∉ handleRequest params req soaOut body := by
  have ht : handleRequest params req soaOut body =
      (if params.hasLogFn then [Event.logged] else []) ++
        [Event.wrote (notimpResponse req)] := by
    simp only [handleRequest, h1]
    simp only [List.headD_cons, List.length_cons, List.length_nil]
    rw [if_neg (by simp), if_pos hbad]
  refine ⟨ht, rfl, rfl, ?_, ?_⟩ <;>
    cases hl : params.hasLogFn <;> simp [ht, hl]

theorem C5_notimp_on_invalid_witness :
    reqBad_W.question = [⟨QCLASS.IN, 1, domW⟩] ∧
    handleRequest pW reqBad_W (SoaOutcome.ok 7) ⟨[], none⟩ =
      [Event.wrote (notimpResponse reqBad_W)] := by
  refine ⟨by decide, ?_⟩
  have h := (C5_notimp_on_invalid pW reqBad_W (SoaOutcome.ok 7) ⟨[], none⟩
    ⟨QCLASS.IN, 1, domW⟩ (by decide) (by right; right; right; decide)).1
  simpa [pW] using h

/-- C7: a valid SOA query whose SOA producer succeeds gets exactly one
response: authoritative, answer exactly the returned SOA record, same id as
the request, and the body producer is never invoked. -/
theorem C7_soa_query {R : Type} (params : Params) (req : Packet R)
    (body : BodyBehavior R) (q : Question) (soa : R)
    (h1 : req.question = [q])
    (hop : req.header.opcode = OPCODE.QUERY) (hc : q.qclass = QCLASS.IN)
    (hn : q.name = params.domain) (ht : q.qtype = QTYPE.SOA) :
    handleRequest params req (SoaOutcome.ok soa) body =
      (if params.hasLogFn then [Event.logged] else []) ++
        [Event.soaInvoked, Event.wrote (soaResponse req soa)] ∧
    writtenOf (handleRequest params req (SoaOutcome.ok soa) body) =
      [soaResponse req soa] ∧
    (soaResponse req soa).header.aa = 1 ∧
    (soaResponse req soa).answer = [soa] ∧
    (soaResponse req soa).header.id = req.header.id ∧
    ∀ a, Event.bodyInvoked a ∉ handleRequest params req (SoaOutcome.ok soa) body := by
  have htr : handleRequest params req (SoaOutcome.ok soa) body =
      (if params.hasLogFn then [Event.logged] else []) ++
        [Event.soaInvoked, Event.wrote (soaResponse req soa)] := by
    have hcond : q.qtype ≠ QTYPE.AXFR ∧ q.qtype ≠ QTYPE.IXFR := by
      constructor <;> simp [ht, QTYPE.SOA, QTYPE.AXFR, QTYPE.IXFR]
    simp only [handleRequest, h1]
    simp only [List.headD_cons, List.length_cons, List.length_nil]
    rw [if_neg (by simp)]
    rw [if_neg (by simp [hop, hc, hn, ht, QTYPE.SOA, QTYPE.AXFR, QTYPE.IXFR])]
    rw [if_pos hcond]
    simp
  refine ⟨htr, ?_, rfl, rfl, rfl, ?_⟩
  · rw [htr]
    cases hl : params.hasLogFn <;> simp [writtenOf, Event.writtenPacket]
  · cases hl : params.hasLogFn <;> simp [htr, hl]

theorem C7_soa_query_witness :
    reqSOA_W.question = [qSOA_W] ∧
    writtenOf (handleRequest pW reqSOA_W (SoaOutcome.ok 7) ⟨[], none⟩) =
      [soaResponse reqSOA_W 7] :=
  ⟨by decide,
    (C7_soa_query pW reqSOA_W ⟨[], none⟩ qSOA_W 7 rfl rfl rfl rfl rfl).2.1⟩

lemma writtenOf_logEvs (b : Bool) :
    writtenOf (if b then [Event.logged] else ([] : List (Event R))) = [] := by
  cases b <;> rfl

lemma writtenOf_failEvents (params : Params) (req : Packet R) (b : Bool)
    (e : Nat) : writtenOf (failEvents params req b e) = [servfailPacket req b] := by
  unfold failEvents
  cases h : params.hasErrorFn <;> simp [h, writtenOf, Event.writtenPacket]

lemma errorsOf_failEvents (params : Params) (req : Packet R) (b : Bool)
    (e : Nat) (he : params.hasErrorFn = true) :
    errorsOf (failEvents params req b e) = [e] := by
  unfold failEvents
  simp [he, errorsOf, Event.errPayload]

/-- Every packet a `runEmits` batching run writes is a batch packet. -/
lemma runEmits_mem (B : Nat) (req : Packet R) :
    ∀ (rs pending : List R) (p : Packet R),
      p ∈ (runEmits B req pending rs).2 → ∃ recs, p = batchPacket req recs := by
  intro rs
  induction rs with
  | nil => intro pending p hp; simp [runEmits] at hp
  | cons r rs ih =>
    intro pending p hp
    simp only [runEmits] at hp
    split at hp
    · rcases List.mem_cons.mp hp with h | h
      · exact ⟨pending ++ [r], h⟩
      · exact ih [] p h
    · exact ih (pending ++ [r]) p hp

/-- Every packet `handleRequest` writes comes from `ResponsePacket`: it is one
of the six response constructions. -/
lemma mem_writtenOf_handleRequest (params : Params) (req : Packet R)
    (soaOut : SoaOutcome R) (body : BodyBehavior R) (p : Packet R)
    (hp : p ∈ writtenOf (handleRequest params req soaOut body)) :
    p = formerrResponse req ∨ p = notimpResponse req ∨
      (∃ soa, p = soaResponse req soa) ∨ (∃ b, p = servfailPacket req b) ∨
      ∃ recs, p = batchPacket req recs := by
  unfold handleRequest at hp
  split at hp
  · simp [writtenOf, Event.writtenPacket] at hp
    exact Or.inl hp
  · dsimp only at hp
    split at hp
    · rw [writtenOf_append, writtenOf_logEvs] at hp
      simp [writtenOf, Event.writtenPacket] at hp
      exact Or.inr (Or.inl hp)
    · rw [writtenOf_append, writtenOf_append, writtenOf_logEvs] at hp
      simp only [List.nil_append, writtenOf_cons_soaInvoked, writtenOf_nil,
        List.append_nil] at hp
      split at hp
      · rw [writtenOf_failEvents] at hp
        simp at hp
        exact Or.inr (Or.inr (Or.inr (Or.inl ⟨true, hp⟩)))
      · rw [writtenOf_cons_wrote] at hp
        rcases List.mem_cons.mp hp with h | h
        · exact Or.inr (Or.inr (Or.inl ⟨_, h⟩))
        · split at h
          · simp [writtenOf] at h
          · rw [writtenOf_cons_bodyInvoked, writtenOf_append,
              writtenOf_map_wrote] at h
            rcases List.mem_append.mp h with h | h
            · exact Or.inr (Or.inr (Or.inr (Or.inr (runEmits_mem _ _ _ _ _ h))))
            · split at h
              · rw [writtenOf_failEvents] at h
                simp at h
                exact Or.inr (Or.inr (Or.inr (Or.inl ⟨false, h⟩)))
              · rw [writtenOf_append] at h
                rcases List.mem_append.mp h with h | h
                · split at h
                  · simp [writtenOf, Event.writtenPacket] at h
                    exact Or.inr (Or.inr (Or.inr (Or.inr ⟨_, h⟩)))
                  · simp [writtenOf] at h
                · simp [writtenOf, Event.writtenPacket, closingResponse] at h
                  exact Or.inr (Or.inr (Or.inr (Or.inr ⟨_, h⟩)))

/-- C10: every response written for an inbound request — FORMERR, NOTIMP, SOA
response, batch response, closing SOA and SERVFAIL alike — carries the
request's header id and has the qr flag set, because every outbound packet is
built through `ResponsePacket`. -/
theorem C10_response_id_qr {R : Type} (params : Params) (req : Packet R)
    (soaOut : SoaOutcome R) (body : BodyBehavior R) :
    ∀ p ∈ writtenOf (handleRequest params req soaOut body),
      p.header.id = req.header.id ∧ p.header.qr = 1 := by
  intro p hp
  rcases mem_writtenOf_handleRequest params req soaOut body p hp with
    h | h | ⟨soa, h⟩ | ⟨b, h⟩ | ⟨recs, h⟩ <;> subst h <;> exact ⟨rfl, rfl⟩

/-- C8: an accepted connection's remote address is normalized by stripping
the IPv4-mapped-IPv6 marker and looked up in the address index; no match
destroys the connection (no session processing, nothing written), a match
proceeds to request processing for that slave. -/
theorem C8_whitelist_check :
    (∀ s : Str, sanitizeAddress ("::ffff:".data ++ s) = s) ∧
    (∀ s : Str, s.take 7 ≠ "::ffff:".data → sanitizeAddress s = s) ∧
    (∀ (st : ServerState) (a : Str),
      handleConnection st a = ConnOutcome.destroyed ↔
        indexLookup st.slavesByIp (sanitizeAddress a) = none) ∧
    (∀ (st : ServerState) (a : Str) (sl : Slave),
      handleConnection st a = ConnOutcome.processed sl ↔
        indexLookup st.slavesByIp (sanitizeAddress a) = some sl) := by
  refine ⟨?_, ?_, ?_, ?_⟩
  · intro s
    have h7 : ("::ffff:".data).length = 7 := rfl
    rw [sanitizeAddress, if_pos, ← h7, List.drop_left]
    rw [← h7, List.take_left]
  · intro s hs
    rw [sanitizeAddress, if_neg hs]
  · intro st a
    unfold handleConnection
    cases h : indexLookup st.slavesByIp (sanitizeAddress a) <;> simp [h]
  · intro st a sl
    unfold handleConnection
    cases h : indexLookup st.slavesByIp (sanitizeAddress a) <;> simp [h]

theorem C8_whitelist_check_witness :
    sanitizeAddress ("::ffff:".data ++ "z".data) = "z".data ∧
    ("q".data.take 7 ≠ "::ffff:".data ∧ sanitizeAddress "q".data = "q".data) ∧
    handleConnection initialServerState "z".data = ConnOutcome.destroyed :=
  ⟨C8_whitelist_check.1 "z".data,
    ⟨by decide, C8_whitelist_check.2.1 "q".data (by decide)⟩,
    (C8_whitelist_check.2.2.1 initialServerState "z".data).mpr (by decide)⟩

/-- C9: `notify()` builds a single NOTIFY message (opcode NOTIFY, aa set, one
question {class IN, type SOA, name = zone}) and writes exactly that message
once to each registered slave at the slave's host and port, in registry
order; nothing is awaited or retried. -/
theorem C9_notify (st : ServerState) (domain : Str) :
    (notifySends st domain : List (NotifySend Nat)).length = st.slaves.length ∧
    (∀ i (h : i < st.slaves.length),
      (notifySends st domain : List (NotifySend Nat))[i]? =
        some { host := st.slaves[i].host, port := st.slaves[i].port,
               pkt := notifyPacket domain }) ∧
    (notifyPacket domain : Packet Nat).header.opcode = OPCODE.NOTIFY ∧
    (notifyPacket domain : Packet Nat).header.aa = 1 ∧
    (notifyPacket domain : Packet Nat).header.qr = 0 ∧
    (notifyPacket domain : Packet Nat).question =
      [⟨QCLASS.IN, QTYPE.SOA, domain⟩] := by
  refine ⟨by simp [notifySends], ?_, rfl, rfl, rfl, rfl⟩
  intro i h
  simp [notifySends, List.getElem?_map, List.getElem?_eq_getElem h]

theorem C9_notify_witness :
    (notifySends ⟨[⟨"h".data, 1234, ["a".data]⟩], [("a".data, ⟨"h".data, 1234, ["a".data]⟩)]⟩ "z".data :
        List (NotifySend Nat))[0]? =
      some { host := "h".data, port := 1234, pkt := notifyPacket "z".data } :=
  (C9_notify ⟨[⟨"h".data, 1234, ["a".data]⟩],
      [("a".data, ⟨"h".data, 1234, ["a".data]⟩)]⟩ "z".data).2.1 0 (by decide)

/-- The event trace of a valid AXFR/IXFR request whose SOA producer
succeeded: optional log event, SOA producer invocation, SOA response, body
producer invocation, the batch flushes, then the `done` handling. -/
lemma handleRequest_stream (params : Params) (req : Packet R)
    (body : BodyBehavior R) (q : Question) (soa : R)
    (h1 : req.question = [q])
    (hop : req.header.opcode = OPCODE.QUERY) (hc : q.qclass = QCLASS.IN)
    (hn : q.name = params.domain)
    (ht : q.qtype = QTYPE.AXFR ∨ q.qtype = QTYPE.IXFR) :
    handleRequest params req (SoaOutcome.ok soa) body =
      (if params.hasLogFn then [Event.logged] else []) ++
        Event.soaInvoked :: Event.wrote (soaResponse req soa) ::
          Event.bodyInvoked (bodyCallArgs req soa) ::
            ((runEmits (jsOr params.batchSize 20) req [] body.emits).2.map
                Event.wrote ++
              match body.done with
              | some e => failEvents params req false e
              | none =>
                (if (runEmits (jsOr params.batchSize 20) req [] body.emits).1.length ≠ 0 then
                    [Event.wrote
                      (batchPacket req
                        (runEmits (jsOr params.batchSize 20) req [] body.emits).1)]
                  else []) ++
                  [Event.wrote (closingResponse req soa)]) := by
  have hvalid : ¬(req.header.opcode ≠ OPCODE.QUERY ∨ q.qclass ≠ QCLASS.IN ∨
      q.name ≠ params.domain ∨
      (q.qtype ≠ QTYPE.SOA ∧ q.qtype ≠ QTYPE.AXFR ∧ q.qtype ≠ QTYPE.IXFR)) := by
    rcases ht with h | h <;> simp [hop, hc, hn, h]
  have hcond : ¬(q.qtype ≠ QTYPE.AXFR ∧ q.qtype ≠ QTYPE.IXFR) := by
    rcases ht with h | h <;> simp [h]
  simp only [handleRequest, h1]
  simp only [List.headD_cons, List.length_cons, List.length_nil]
  rw [if_neg (by simp), if_neg hvalid, if_neg hcond]
  simp

/-- The event trace of a valid request whose SOA producer failed: optional
log event, SOA producer invocation, then `fail(err, true)`. -/
lemma handleRequest_soaErr (params : Params) (req : Packet R)
    (body : BodyBehavior R) (q : Question) (e : Nat)
    (h1 : req.question = [q])
    (hop : req.header.opcode = OPCODE.QUERY) (hc : q.qclass = QCLASS.IN)
    (hn : q.name = params.domain)
    (ht : q.qtype = QTYPE.SOA ∨ q.qtype = QTYPE.AXFR ∨ q.qtype = QTYPE.IXFR) :
    handleRequest params req (SoaOutcome.err e) body =
      (if params.hasLogFn then [Event.logged] else []) ++
        Event.soaInvoked :: failEvents params req true e := by
  have hvalid : ¬(req.header.opcode ≠ OPCODE.QUERY ∨ q.qclass ≠ QCLASS.IN ∨
      q.name ≠ params.domain ∨
      (q.qtype ≠ QTYPE.SOA ∧ q.qtype ≠ QTYPE.AXFR ∧ q.qtype ≠ QTYPE.IXFR)) := by
    rcases ht with h | h | h <;> simp [hop, hc, hn, h]
  simp only [handleRequest, h1]
  simp only [List.headD_cons, List.length_cons, List.length_nil]
  rw [if_neg (by simp), if_neg hvalid]
  simp

lemma bodyCallsOf_map_wrote (pks : List (Packet R)) :
    bodyCallsOf (pks.map Event.wrote) = [] := by
  induction pks with
  | nil => rfl
  | cons p ps ih => simp [bodyCallsOf, Event.bodyArgs]

lemma bodyCallsOf_failEvents (params : Params) (req : Packet R) (b : Bool)
    (e : Nat) : bodyCallsOf (failEvents params req b e) = [] := by
  unfold failEvents
  cases h : params.hasErrorFn <;> simp [h, bodyCallsOf, Event.bodyArgs]

lemma runEmits_nil (B : Nat) (req : Packet R) (pending : List R) :
    runEmits B req pending [] = (pending, []) := rfl

lemma runEmits_cons_flush (B : Nat) (req : Packet R) (pending : List R)
    (r : R) (rs : List R) (h : B ≤ (pending ++ [r]).length) :
    runEmits B req pending (r :: rs) =
      ((runEmits B req [] rs).1,
        batchPacket req (pending ++ [r]) :: (runEmits B req [] rs).2) := by
  simp only [runEmits]
  rw [if_pos h]

lemma runEmits_cons_noflush (B : Nat) (req : Packet R) (pending : List R)
    (r : R) (rs : List R) (h : ¬B ≤ (pending ++ [r]).length) :
    runEmits B req pending (r :: rs) = runEmits B req (pending ++ [r]) rs := by
  simp only [runEmits]
  rw [if_neg h]

/-- Full characterisation of a batching run started with `pending` strictly
below the limit: the written packets are full batches, in emission order
with nothing dropped or duplicated, and the leftover is the remainder. -/
lemma runEmits_spec (B : Nat) (hB : 0 < B) (req : Packet R) :
    ∀ (rs pending : List R), pending.length < B →
      ∃ bs : List (List R),
        (runEmits B req pending rs).2 = bs.map (batchPacket req) ∧
        (∀ b ∈ bs, b.length = B) ∧
        bs.flatten ++ (runEmits B req pending rs).1 = pending ++ rs ∧
        bs.length = (pending.length + rs.length) / B ∧
        (runEmits B req pending rs).1.length = (pending.length + rs.length) % B := by
  intro rs
  induction rs with
  | nil =>
    intro pending hp
    refine ⟨[], by simp [runEmits_nil], by simp, by simp [runEmits_nil], ?_, ?_⟩
    · simp [Nat.div_eq_of_lt hp]
    · simp [runEmits_nil, Nat.mod_eq_of_lt hp]
  | cons r rs ih =>
    intro pending hp
    by_cases hful : B ≤ (pending ++ [r]).length
    · have hlen : pending.length + 1 = B := by
        simp only [List.length_append, List.length_cons, List.length_nil] at hful
        omega
      obtain ⟨bs, h2, hball, hjoin, hcount, hmod⟩ := ih [] (by simpa using hB)
      refine ⟨(pending ++ [r]) :: bs, ?_, ?_, ?_, ?_, ?_⟩
      · rw [runEmits_cons_flush B req pending r rs hful]
        simp [h2]
      · intro b hb
        rcases List.mem_cons.mp hb with h | h
        · subst h; simp [hlen]
        · exact hball b h
      · rw [runEmits_cons_flush B req pending r rs hful]
        simp only [List.flatten_cons, List.append_assoc]
        simp only [List.nil_append] at hjoin
        rw [hjoin]
        simp
      · simp only [List.length_cons, hcount, List.length_nil, Nat.zero_add]
        have harith : pending.length + (rs.length + 1) = rs.length + B := by omega
        rw [harith, Nat.add_div_right _ hB]
      · rw [runEmits_cons_flush B req pending r rs hful]
        simp only [hmod, List.length_nil, Nat.zero_add, List.length_cons]
        have harith : pending.length + (rs.length + 1) = rs.length + B := by omega
        rw [harith, Nat.add_mod_right]
    · have hlt : (pending ++ [r]).length < B := lt_of_not_ge hful
      obtain ⟨bs, h2, hball, hjoin, hcount, hmod⟩ := ih (pending ++ [r]) hlt
      refine ⟨bs, ?_, hball, ?_, ?_, ?_⟩
      · rw [runEmits_cons_noflush B req pending r rs hful]
        exact h2
      · rw [runEmits_cons_noflush B req pending r rs hful]
        rw [hjoin]
        simp
      · rw [hcount]
        congr 1
        simp only [List.length_append, List.length_cons, List.length_nil]
        omega
      · rw [runEmits_cons_noflush B req pending r rs hful, hmod]
        congr 1
        simp only [List.length_append, List.length_cons, List.length_nil]
        omega

/-- The effective batch size `params.batchSize || 20` is positive. -/
lemma jsOr20_pos (n : Nat) : 0 < jsOr n 20 := by
  unfold jsOr
  split <;> omega

/-- Ceiling arithmetic: the number of batches a run flushes plus an optional
final partial batch is `⌈N/B⌉ = (N + B - 1) / B`. -/
lemma ceil_div_eq (N B : Nat) (hB : 0 < B) :
    (N + B - 1) / B = N / B + (if N % B = 0 then 0 else 1) := by
  rcases Nat.eq_zero_or_pos N with h0 | hN
  · subst h0
    simp [Nat.div_eq_of_lt (by omega : B - 1 < B)]
  · have hd := Nat.div_add_mod N B
    set k := N / B with hk
    set r := N % B with hr
    have hrB : r < B := Nat.mod_lt _ hB
    by_cases hz : r = 0
    · have hNk : N = B * k := by omega
      rw [if_pos hz]
      have : N + B - 1 = B * k + (B - 1) := by omega
      rw [this, Nat.mul_add_div hB, Nat.div_eq_of_lt (by omega : B - 1 < B)]
    · rw [if_neg hz]
      have : N + B - 1 = B * k + ((r - 1) + B) := by omega
      rw [this, Nat.mul_add_div hB, Nat.add_div_right _ hB,
        Nat.div_eq_of_lt (by omega : r - 1 < B)]

/-- The stream trace when the body producer finishes with `done(null)`. -/
lemma handleRequest_stream_done (params : Params) (req : Packet R)
    (body : BodyBehavior R) (q : Question) (soa : R)
    (h1 : req.question = [q])
    (hop : req.header.opcode = OPCODE.QUERY) (hc : q.qclass = QCLASS.IN)
    (hn : q.name = params.domain)
    (ht : q.qtype = QTYPE.AXFR ∨ q.qtype = QTYPE.IXFR)
    (hd : body.done = none) :
    handleRequest params req (SoaOutcome.ok soa) body =
      (if params.hasLogFn then [Event.logged] else []) ++
        Event.soaInvoked :: Event.wrote (soaResponse req soa) ::
          Event.bodyInvoked (bodyCallArgs req soa) ::
            ((runEmits (jsOr params.batchSize 20) req [] body.emits).2.map
                Event.wrote ++
              ((if (runEmits (jsOr params.batchSize 20) req [] body.emits).1.length ≠ 0 then
                  [Event.wrote
                    (batchPacket req
                      (runEmits (jsOr params.batchSize 20) req [] body.emits).1)]
                else []) ++
                [Event.wrote (closingResponse req soa)])) := by
  rw [handleRequest_stream params req body q soa h1 hop hc hn ht, hd]

/-- The stream trace when the body producer reports `done(err)`. -/
lemma handleRequest_stream_fail (params : Params) (req : Packet R)
    (body : BodyBehavior R) (q : Question) (soa : R) (e : Nat)
    (h1 : req.question = [q])
    (hop : req.header.opcode = OPCODE.QUERY) (hc : q.qclass = QCLASS.IN)
    (hn : q.name = params.domain)
    (ht : q.qtype = QTYPE.AXFR ∨ q.qtype = QTYPE.IXFR)
    (hd : body.done = some e) :
    handleRequest params req (SoaOutcome.ok soa) body =
      (if params.hasLogFn then [Event.logged] else []) ++
        Event.soaInvoked :: Event.wrote (soaResponse req soa) ::
          Event.bodyInvoked (bodyCallArgs req soa) ::
            ((runEmits (jsOr params.batchSize 20) req [] body.emits).2.map
                Event.wrote ++
              failEvents params req false e) := by
  rw [handleRequest_stream params req body q soa h1 hop hc hn ht, hd]

/-- Every packet of the successful streaming response list is authoritative. -/
lemma aa_of_mem_streamlist (req : Packet R) (soa : R) (batches : List (List R))
    (p : Packet R)
    (hp : p ∈ soaResponse req soa ::
      (batches.map (batchPacket req) ++ [closingResponse req soa])) :
    p.header.aa = 1 := by
  rcases List.mem_cons.mp hp with h | h
  · subst h; rfl
  · rcases List.mem_append.mp h with h | h
    · obtain ⟨b, _, rfl⟩ := List.mem_map.mp h; rfl
    · simp at h; subst h; rfl

/-- C1: for a valid AXFR/IXFR request whose body producer emits N records and
calls `done(null)`, with effective batch size B, the written responses are:
the SOA response, then exactly ⌈N/B⌉ batch responses (each non-empty with at
most B records, every batch before the last containing exactly B records — a
batch is flushed exactly when the pending count reaches B — carrying the
emitted records in order, none dropped or duplicated), then one closing
response whose sole answer is the SOA record; every written packet is
authoritative. -/
theorem C1_axfr_batching {R : Type} (params : Params) (req : Packet R)
    (body : BodyBehavior R) (q : Question) (soa : R)
    (h1 : req.question = [q]) (hop : req.header.opcode = OPCODE.QUERY)
    (hc : q.qclass = QCLASS.IN) (hn : q.name = params.domain)
    (ht : q.qtype = QTYPE.AXFR ∨ q.qtype = QTYPE.IXFR)
    (hd : body.done = none) :
    ∃ batches : List (List R),
      writtenOf (handleRequest params req (SoaOutcome.ok soa) body) =
        soaResponse req soa ::
          (batches.map (batchPacket req) ++ [closingResponse req soa]) ∧
      batches.flatten = body.emits ∧
      batches.length =
        (body.emits.length + jsOr params.batchSize 20 - 1) /
          jsOr params.batchSize 20 ∧
      (∀ b ∈ batches, b.length ≤ jsOr params.batchSize 20 ∧ b ≠ []) ∧
      (∀ b ∈ batches.dropLast, b.length = jsOr params.batchSize 20) ∧
      (closingResponse req soa).answer = [soa] ∧
      ∀ p ∈ writtenOf (handleRequest params req (SoaOutcome.ok soa) body),
        p.header.aa = 1 := by
  have hB : 0 < jsOr params.batchSize 20 := jsOr20_pos _
  set B := jsOr params.batchSize 20 with hBdef
  obtain ⟨bs, h2, hball, hjoin, hcount, hmod⟩ :=
    runEmits_spec B hB req body.emits [] (by simpa using hB)
  simp only [List.length_nil, Nat.zero_add, List.nil_append] at hcount hmod hjoin
  have htrace := handleRequest_stream_done params req body q soa h1 hop hc hn ht hd
  by_cases hfp : (runEmits B req [] body.emits).1 = []
  · have hfl : ¬((runEmits B req [] body.emits).1.length ≠ 0) := by simp [hfp]
    have hw : writtenOf (handleRequest params req (SoaOutcome.ok soa) body) =
        soaResponse req soa ::
          (bs.map (batchPacket req) ++ [closingResponse req soa]) := by
      rw [htrace, if_neg hfl]
      rw [writtenOf_append, writtenOf_logEvs, writtenOf_cons_soaInvoked,
        writtenOf_cons_wrote, writtenOf_cons_bodyInvoked, writtenOf_append,
        writtenOf_map_wrote, h2]
      simp [writtenOf, Event.writtenPacket]
    refine ⟨bs, hw, ?_, ?_, ?_, ?_, rfl, ?_⟩
    · rw [hfp] at hjoin
      simpa using hjoin
    · have hz : body.emits.length % B = 0 := by rw [← hmod, hfp]; rfl
      rw [ceil_div_eq _ _ hB, if_pos hz, Nat.add_zero]
      exact hcount
    · intro b hb
      have hbl := hball b hb
      exact ⟨le_of_eq hbl, List.ne_nil_of_length_pos (hbl ▸ hB)⟩
    · intro b hb
      exact hball b (List.dropLast_subset bs hb)
    · intro p hp
      rw [hw] at hp
      exact aa_of_mem_streamlist req soa bs p hp
  · have hfl : (runEmits B req [] body.emits).1.length ≠ 0 := by
      simpa [List.length_eq_zero] using hfp
    have hw : writtenOf (handleRequest params req (SoaOutcome.ok soa) body) =
        soaResponse req soa ::
          ((bs ++ [(runEmits B req [] body.emits).1]).map (batchPacket req) ++
            [closingResponse req soa]) := by
      rw [htrace, if_pos hfl]
      rw [writtenOf_append, writtenOf_logEvs, writtenOf_cons_soaInvoked,
        writtenOf_cons_wrote, writtenOf_cons_bodyInvoked, writtenOf_append,
        writtenOf_map_wrote, h2]
      simp [writtenOf, Event.writtenPacket]
    refine ⟨bs ++ [(runEmits B req [] body.emits).1], hw, ?_, ?_, ?_, ?_, rfl,
      ?_⟩
    · simp only [List.flatten_append, List.flatten_cons, List.flatten_nil,
        List.append_nil]
      exact hjoin
    · have hnz : body.emits.length % B ≠ 0 := by
        rw [← hmod]
        exact hfl
      rw [ceil_div_eq _ _ hB, if_neg hnz]
      simp [hcount]
    · intro b hb
      rcases List.mem_append.mp hb with h | h
      · have hbl := hball b h
        exact ⟨le_of_eq hbl, List.ne_nil_of_length_pos (hbl ▸ hB)⟩
      · simp only [List.mem_singleton] at h
        subst h
        refine ⟨?_, hfp⟩
        rw [hmod]
        exact le_of_lt (Nat.mod_lt _ hB)
    · intro b hb
      rw [List.dropLast_concat] at hb
      exact hball b hb
    · intro p hp
      rw [hw] at hp
      exact aa_of_mem_streamlist req soa _ p hp

theorem C1_axfr_batching_witness :
    reqAX_W.question = [qAX_W] ∧
    ∃ batches : List (List Nat),
      writtenOf (handleRequest pW reqAX_W (SoaOutcome.ok 7) ⟨[1, 2, 3], none⟩) =
        soaResponse reqAX_W 7 ::
          (batches.map (batchPacket reqAX_W) ++ [closingResponse reqAX_W 7]) ∧
      batches.flatten = [1, 2, 3] ∧
      batches.length = 2 ∧
      (∀ b ∈ batches, b.length ≤ 2 ∧ b ≠ []) ∧
      (∀ b ∈ batches.dropLast, b.length = 2) ∧
      (closingResponse reqAX_W 7).answer = [7] ∧
      ∀ p ∈ writtenOf (handleRequest pW reqAX_W (SoaOutcome.ok 7) ⟨[1, 2, 3], none⟩),
        p.header.aa = 1 :=
  ⟨rfl,
    C1_axfr_batching pW reqAX_W ⟨[1, 2, 3], none⟩ qAX_W 7 rfl rfl rfl rfl
      (Or.inl rfl) rfl⟩

lemma errorsOf_append (a b : List (Event R)) :
    errorsOf (a ++ b) = errorsOf a ++ errorsOf b :=
  List.filterMap_append a b _

lemma errorsOf_logEvs (b : Bool) :
    errorsOf (if b then [Event.logged] else ([] : List (Event R))) = [] := by
  cases b <;> rfl

lemma errorsOf_cons_soaInvoked (es : List (Event R)) :
    errorsOf (Event.soaInvoked :: es) = errorsOf es := rfl

lemma errorsOf_cons_wrote (p : Packet R) (es : List (Event R)) :
    errorsOf (Event.wrote p :: es) = errorsOf es := rfl

lemma errorsOf_cons_bodyInvoked (a : List (ArgVal R)) (es : List (Event R)) :
    errorsOf (Event.bodyInvoked a :: es) = errorsOf es := rfl

lemma errorsOf_map_wrote (pks : List (Packet R)) :
    errorsOf (pks.map Event.wrote) = [] := by
  induction pks with
  | nil => rfl
  | cons p ps ih => simp [errorsOf, Event.errPayload]

lemma rcode_soaResponse (req : Packet R) (soa : R) :
    (soaResponse req soa).header.rcode = RCODE.NOERROR := rfl

lemma rcode_batchPacket (req : Packet R) (b : List R) :
    (batchPacket req b).header.rcode = RCODE.NOERROR := rfl

lemma rcode_servfailPacket (req : Packet R) (b : Bool) :
    (servfailPacket req b).header.rcode = RCODE.SERVFAIL := rfl

/-- C2: whenever a producer reports an error — the SOA producer calling back
with an error, or the body producer calling `done(err)` — exactly one
SERVFAIL response (authoritative) is written for the request, the question
list is included only in the SOA-failure case, pending batch records are
discarded, no closing SOA is sent, and the error collaborator is invoked
exactly once with that error. -/
theorem C2_producer_error {R : Type} (params : Params) (req : Packet R)
    (q : Question)
    (h1 : req.question = [q]) (hop : req.header.opcode = OPCODE.QUERY)
    (hc : q.qclass = QCLASS.IN) (hn : q.name = params.domain)
    (he : params.hasErrorFn = true) :
    (∀ (e : Nat) (body : BodyBehavior R),
      (q.qtype = QTYPE.SOA ∨ q.qtype = QTYPE.AXFR ∨ q.qtype = QTYPE.IXFR) →
        writtenOf (handleRequest params req (SoaOutcome.err e) body) =
          [servfailPacket req true] ∧
        errorsOf (handleRequest params req (SoaOutcome.err e) body) = [e] ∧
        (servfailPacket req true).header.rcode = RCODE.SERVFAIL ∧
        (servfailPacket req true).header.aa = 1 ∧
        (servfailPacket req true).question = req.question) ∧
    (∀ (e : Nat) (soa : R) (rs : List R),
      (q.qtype = QTYPE.AXFR ∨ q.qtype = QTYPE.IXFR) →
        ∃ bs : List (List R),
          writtenOf (handleRequest params req (SoaOutcome.ok soa) ⟨rs, some e⟩) =
            soaResponse req soa ::
              (bs.map (batchPacket req) ++ [servfailPacket req false]) ∧
          (∀ b ∈ bs, b.length = jsOr params.batchSize 20) ∧
          (∃ fp : List R, bs.flatten ++ fp = rs ∧
            fp.length < jsOr params.batchSize 20) ∧
          (writtenOf (handleRequest params req (SoaOutcome.ok soa)
              ⟨rs, some e⟩)).countP
            (fun p => p.header.rcode == RCODE.SERVFAIL) = 1 ∧
          errorsOf (handleRequest params req (SoaOutcome.ok soa) ⟨rs, some e⟩) =
            [e] ∧
          (servfailPacket req false).header.rcode = RCODE.SERVFAIL ∧
          (servfailPacket req false).header.aa = 1 ∧
          (servfailPacket req false).question = []) := by
  constructor
  · intro e body htype
    have htr := handleRequest_soaErr params req body q e h1 hop hc hn htype
    refine ⟨?_, ?_, rfl, rfl, ?_⟩
    · rw [htr, writtenOf_append, writtenOf_logEvs, writtenOf_cons_soaInvoked,
        writtenOf_failEvents]
      simp
    · rw [htr, errorsOf_append, errorsOf_logEvs, errorsOf_cons_soaInvoked,
        errorsOf_failEvents params req true e he]
      simp
    · simp [servfailPacket]
  · intro e soa rs htype
    have hB : 0 < jsOr params.batchSize 20 := jsOr20_pos _
    set B := jsOr params.batchSize 20 with hBdef
    obtain ⟨bs, h2, hball, hjoin, hcount, hmod⟩ :=
      runEmits_spec B hB req rs [] (by simpa using hB)
    simp only [List.length_nil, Nat.zero_add, List.nil_append] at hjoin hmod
    have htr := handleRequest_stream_fail params req ⟨rs, some e⟩ q soa e h1
      hop hc hn htype rfl
    have hw : writtenOf (handleRequest params req (SoaOutcome.ok soa)
        ⟨rs, some e⟩) =
        soaResponse req soa ::
          (bs.map (batchPacket req) ++ [servfailPacket req false]) := by
      rw [htr, writtenOf_append, writtenOf_logEvs, writtenOf_cons_soaInvoked,
        writtenOf_cons_wrote, writtenOf_cons_bodyInvoked, writtenOf_append,
        writtenOf_map_wrote, writtenOf_failEvents]
      simp [h2]
    have h0 : (bs.map (batchPacket req)).countP
        (fun p => p.header.rcode == RCODE.SERVFAIL) = 0 := by
      rw [List.countP_eq_zero]
      intro x hx
      obtain ⟨b, _, rfl⟩ := List.mem_map.mp hx
      simp [rcode_batchPacket, RCODE.NOERROR, RCODE.SERVFAIL]
    refine ⟨bs, hw, hball, ⟨(runEmits B req [] rs).1, hjoin, ?_⟩, ?_, ?_,
      rfl, rfl, rfl⟩
    · rw [hmod]
      exact Nat.mod_lt _ hB
    · rw [hw]
      simp [List.countP_cons, List.countP_append, h0, rcode_soaResponse,
        rcode_servfailPacket, RCODE.NOERROR, RCODE.SERVFAIL]
      intro a _
      simp [rcode_batchPacket, RCODE.NOERROR]
    · rw [htr, errorsOf_append, errorsOf_logEvs, errorsOf_cons_soaInvoked,
        errorsOf_cons_wrote, errorsOf_cons_bodyInvoked, errorsOf_append,
        errorsOf_map_wrote, errorsOf_failEvents params req false e he]
      simp

theorem C2_producer_error_witness :
    reqAX_W.question = [qAX_W] ∧ pW.hasErrorFn = true ∧
    writtenOf (handleRequest pW reqAX_W (SoaOutcome.err 5) ⟨[], none⟩) =
      [servfailPacket reqAX_W true] ∧
    errorsOf (handleRequest pW reqAX_W (SoaOutcome.ok (7 : Nat)) ⟨[1], some 5⟩) =
      [5] := by
  refine ⟨rfl, rfl, ?_, ?_⟩
  · exact ((C2_producer_error pW reqAX_W qAX_W rfl rfl rfl rfl rfl).1 5
      ⟨[], none⟩ (Or.inr (Or.inl rfl))).1
  · obtain ⟨bs, -, -, -, -, herr, -⟩ :=
      (C2_producer_error pW reqAX_W qAX_W rfl rfl rfl rfl rfl).2 5 7 [1]
        (Or.inl rfl)
    exact herr

/-- C4 counterexample: for a concrete valid IXFR request carrying
`authority[0].serial = 42`, the body producer is invoked with the argument
list `(context, request, soa record, emit, done)` — which is not the
argument list `(context, request, question, soa record, serial-or-none,
emit, done)` that the claim describes (that list would carry the serial 42
as its own argument). -/
theorem C4_counterexample :
    Event.bodyInvoked (bodyCallArgs reqIX_W (7 : Nat)) ∈
      handleRequest pW reqIX_W (SoaOutcome.ok 7) ⟨[], none⟩ ∧
    bodyCallArgs reqIX_W (7 : Nat) ≠ specBodyCallArgs reqIX_W 7 ∧
    specBodyCallArgs reqIX_W (7 : Nat) =
      [ArgVal.ctx, ArgVal.request reqIX_W, ArgVal.question qIX_W,
       ArgVal.record 7, ArgVal.serialOpt (some 42), ArgVal.emitFn,
       ArgVal.doneFn] :=
  ⟨by decide, by decide, by decide⟩

/-- C4 (amended): for every valid AXFR or IXFR request, the body producer is
invoked exactly once, with the arguments (context, request, soa record, emit
function, done function); no separate question or serial argument is passed
— an IXFR producer reads `request.authority[0].serial` from the request it
is handed. -/
theorem C4_body_invocation {R : Type} (params : Params) (req : Packet R)
    (body : BodyBehavior R) (q : Question) (soa : R)
    (h1 : req.question = [q])
    (hop : req.header.opcode = OPCODE.QUERY) (hc : q.qclass = QCLASS.IN)
    (hn : q.name = params.domain)
    (ht : q.qtype = QTYPE.AXFR ∨ q.qtype = QTYPE.IXFR) :
    bodyCallsOf (handleRequest params req (SoaOutcome.ok soa) body) =
      [bodyCallArgs req soa] ∧
    bodyCallArgs req soa =
      [ArgVal.ctx, ArgVal.request req, ArgVal.record soa, ArgVal.emitFn,
       ArgVal.doneFn] := by
  refine ⟨?_, rfl⟩
  rw [handleRequest_stream params req body q soa h1 hop hc hn ht]
  rcases hd : body.done with _ | e <;>
    cases hl : params.hasLogFn <;>
      simp [hd, hl, bodyCallsOf, Event.bodyArgs, List.filterMap_append,
        bodyCallsOf_map_wrote, bodyCallsOf_failEvents, failEvents]

theorem C4_body_invocation_witness :
    reqIX_W.question = [qIX_W] ∧
    bodyCallsOf (handleRequest pW reqIX_W (SoaOutcome.ok (7 : Nat)) ⟨[], none⟩) =
      [bodyCallArgs reqIX_W 7] :=
  ⟨by decide,
    (C4_body_invocation pW reqIX_W ⟨[], none⟩ qIX_W 7 rfl rfl rfl rfl
      (Or.inr rfl)).1⟩

/-- Invariant of a `setSlaves` run while every arrived lookup has succeeded:
`pending` counts the outstanding lookups, nothing is committed or delivered
yet, and exactly the arrived entries have their addresses recorded. -/
def ssGood (st₀ : ServerState) (resolve : Str → Except Nat (List Str))
    (slaves : List Slave) (seen : List Nat) (σ : SSState) : Prop :=
  σ.pending = (slaves.length : Int) - seen.length ∧
  σ.registry = st₀ ∧
  σ.events = [] ∧
  ∀ k, σ.resolved k =
    if k ∈ seen then
      some (match resolve (slaves.getD k default).host with
            | Except.ok addrs => addrs.map sanitizeAddress
            | Except.error _ => [])
    else none

lemma ssStep_aborted (hasCb : Bool) (resolve : Str → Except Nat (List Str))
    (slaves : List Slave) (σ : SSState) (i : Nat) (h : σ.pending = -1) :
    ssStep hasCb resolve slaves σ i = σ := by
  unfold ssStep
  rw [if_pos h]

lemma foldl_ssStep_aborted (hasCb : Bool)
    (resolve : Str → Except Nat (List Str)) (slaves : List Slave)
    (σ : SSState) (l : List Nat) (h : σ.pending = -1) :
    l.foldl (ssStep hasCb resolve slaves) σ = σ := by
  induction l with
  | nil => rfl
  | cons a l ih =>
    rw [List.foldl_cons, ssStep_aborted hasCb resolve slaves σ a h]
    exact ih

lemma ssComplete_events (hasCb : Bool) (slaves : List Slave) (σ : SSState) :
    (ssComplete hasCb slaves σ).events =
      σ.events ++ if hasCb then [SSEvent.cbCalled none] else [] := rfl

/-- When every entry's addresses are recorded, `onComplete` commits exactly
the resolved slave list and its index. -/
lemma ssComplete_registry (hasCb : Bool)
    (resolve : Str → Except Nat (List Str)) (slaves : List Slave) (σ : SSState)
    (hres : ∀ i, i < slaves.length → (σ.resolved i).getD [] =
      match resolve (slaves.getD i default).host with
      | Except.ok addrs => addrs.map sanitizeAddress
      | Except.error _ => []) :
    (ssComplete hasCb slaves σ).registry =
      { slaves := resolvedSlaves resolve slaves,
        slavesByIp := buildIndex (resolvedSlaves resolve slaves) } := by
  have hs : (List.range slaves.length).map
      (fun i => { slaves.getD i default with
                    addresses := (σ.resolved i).getD [] }) =
      resolvedSlaves resolve slaves := by
    apply List.ext_getElem
    · simp [resolvedSlaves]
    · intro i h1 h2
      have hi : i < slaves.length := by simpa using h1
      simp only [List.getElem_map, List.getElem_range, resolvedSlaves]
      rw [hres i hi, List.getD_eq_getElem slaves default hi]
  simp only [ssComplete]
  rw [hs]

/-- A successful arrival extends the invariant by that entry. -/
lemma ssGood_step (st₀ : ServerState)
    (resolve : Str → Except Nat (List Str)) (slaves : List Slave)
    (seen : List Nat) (a : Nat) (σ : SSState) (as : List Str)
    (hg : ssGood st₀ resolve slaves seen σ)
    (hra : resolve (slaves.getD a default).host = Except.ok as) :
    ssGood st₀ resolve slaves (seen ++ [a])
      { σ with
        pending := σ.pending - 1,
        resolved := fun k =>
          if k = a then some (as.map sanitizeAddress) else σ.resolved k } := by
  obtain ⟨hp, hr, he, hf⟩ := hg
  refine ⟨?_, hr, he, ?_⟩
  · simp only [List.length_append, List.length_cons, List.length_nil]
    omega
  · intro k
    by_cases hk : k = a
    · subst hk
      have hmem : k ∈ seen ++ [k] := by simp
      dsimp only
      rw [if_pos rfl, if_pos hmem, hra]
    · simp only [if_neg hk]
      rw [hf k]
      by_cases hks : k ∈ seen
      · simp [hks]
      · simp [hks, hk]

/-- If every lookup succeeds, the run from a good state ends with the
resolved registry committed and (only) the success callback delivered. -/
lemma ss_run_ok (hasCb : Bool) (resolve : Str → Except Nat (List Str))
    (slaves : List Slave) (st₀ : ServerState) :
    ∀ (rest seen : List Nat) (σ : SSState),
      (seen ++ rest).Perm (List.range slaves.length) →
      (∀ i, i < slaves.length →
        ∃ as, resolve (slaves.getD i default).host = Except.ok as) →
      seen.length < slaves.length →
      ssGood st₀ resolve slaves seen σ →
      (rest.foldl (ssStep hasCb resolve slaves) σ).registry =
        { slaves := resolvedSlaves resolve slaves,
          slavesByIp := buildIndex (resolvedSlaves resolve slaves) } ∧
      (rest.foldl (ssStep hasCb resolve slaves) σ).events =
        if hasCb then [SSEvent.cbCalled none] else [] := by
  intro rest
  induction rest with
  | nil =>
    intro seen σ hperm _ hlt _
    exfalso
    have := hperm.length_eq
    simp at this
    omega
  | cons a rest ih =>
    intro seen σ hperm hok hlt hg
    obtain ⟨hpend, hreg, hev, hres⟩ := hg
    have ha : a < slaves.length := by
      have : a ∈ List.range slaves.length := hperm.mem_iff.mp (by simp)
      simpa [List.mem_range] using this
    obtain ⟨as, has⟩ := hok a ha
    have hlen : seen.length + 1 + rest.length = slaves.length := by
      have := hperm.length_eq
      simp at this
      omega
    have hpne : σ.pending ≠ -1 := by omega
    rw [List.foldl_cons]
    have hstep : ssStep hasCb resolve slaves σ a =
        if (σ.pending - 1 : Int) = 0 then
          ssComplete hasCb slaves
            { σ with
              pending := σ.pending - 1,
              resolved := fun k =>
                if k = a then some (as.map sanitizeAddress)
                else σ.resolved k }
        else
          { σ with
            pending := σ.pending - 1,
            resolved := fun k =>
              if k = a then some (as.map sanitizeAddress)
              else σ.resolved k } := by
      unfold ssStep
      rw [if_neg hpne, has]
    by_cases hzero : (σ.pending - 1 : Int) = 0
    · have hrest : rest = [] := by
        have : rest.length = 0 := by omega
        exact List.length_eq_zero.mp this
      subst hrest
      rw [hstep, if_pos hzero]
      simp only [List.foldl_nil]
      constructor
      · apply ssComplete_registry hasCb resolve slaves
        intro i hi
        by_cases hia : i = a
        · subst hia
          show (if i = i then some (as.map sanitizeAddress)
            else σ.resolved i).getD [] = _
          rw [if_pos rfl, has]
          rfl
        · have hiseen : i ∈ seen := by
            have hmem : i ∈ seen ++ [a] :=
              hperm.mem_iff.mpr (List.mem_range.mpr hi)
            rcases List.mem_append.mp hmem with h | h
            · exact h
            · simp at h
              exact absurd h hia
          simp only [hia, if_false]
          rw [hres i]
          simp [hiseen]
      · rw [ssComplete_events]
        simp [hev]
    · have hrestlt : (seen ++ [a]).length < slaves.length := by
        simp only [List.length_append, List.length_cons, List.length_nil]
        omega
      rw [hstep, if_neg hzero]
      apply ih (seen ++ [a])
      · simpa [List.append_assoc] using hperm
      · exact hok
      · exact hrestlt
      · exact ssGood_step st₀ resolve slaves seen a σ as
          ⟨hpend, hreg, hev, hres⟩ has

/-- If some lookup fails, the run from a good state leaves the registry
unchanged and delivers exactly one error (of a failing entry). -/
lemma ss_run_err (hasCb : Bool) (resolve : Str → Except Nat (List Str))
    (slaves : List Slave) (st₀ : ServerState) :
    ∀ (rest seen : List Nat) (σ : SSState),
      (seen ++ rest).Perm (List.range slaves.length) →
      (∃ i ∈ rest, ∃ e,
        resolve (slaves.getD i default).host = Except.error e) →
      ssGood st₀ resolve slaves seen σ →
      (rest.foldl (ssStep hasCb resolve slaves) σ).registry = st₀ ∧
      ∃ e, (∃ i ∈ rest,
          resolve (slaves.getD i default).host = Except.error e) ∧
        (rest.foldl (ssStep hasCb resolve slaves) σ).events =
          [deliverError hasCb e] := by
  intro rest
  induction rest with
  | nil =>
    intro seen σ _ hfail _
    exact absurd hfail (by simp)
  | cons a rest ih =>
    intro seen σ hperm hfail hg
    obtain ⟨hpend, hreg, hev, hres⟩ := hg
    have hlen : seen.length + 1 + rest.length = slaves.length := by
      have := hperm.length_eq
      simp at this
      omega
    have hpne : σ.pending ≠ -1 := by omega
    rw [List.foldl_cons]
    rcases hra : resolve (slaves.getD a default).host with e | as
    · have hstep : ssStep hasCb resolve slaves σ a =
          { σ with
            pending := -1,
            events := σ.events ++ [deliverError hasCb e] } := by
        unfold ssStep
        rw [if_neg hpne, hra]
      rw [hstep, foldl_ssStep_aborted hasCb resolve slaves _ rest rfl]
      refine ⟨hreg, e, ⟨a, by simp, hra⟩, ?_⟩
      simp [hev]
    · have hstep : ssStep hasCb resolve slaves σ a =
          if (σ.pending - 1 : Int) = 0 then
            ssComplete hasCb slaves
              { σ with
                pending := σ.pending - 1,
                resolved := fun k =>
                  if k = a then some (as.map sanitizeAddress)
                  else σ.resolved k }
          else
            { σ with
              pending := σ.pending - 1,
              resolved := fun k =>
                if k = a then some (as.map sanitizeAddress)
                else σ.resolved k } := by
        unfold ssStep
        rw [if_neg hpne, hra]
      have hfail' : ∃ i ∈ rest, ∃ e,
          resolve (slaves.getD i default).host = Except.error e := by
        obtain ⟨i, hi, e, hie⟩ := hfail
        rcases List.mem_cons.mp hi with h | h
        · subst h
          rw [hra] at hie
          simp at hie
        · exact ⟨i, h, e, hie⟩
      have hzero_ne : ¬((σ.pending - 1 : Int) = 0) := by
        intro h0
        have hr0 : rest.length = 0 := by omega
        obtain ⟨i, hi, _⟩ := hfail'
        rw [List.length_eq_zero.mp hr0] at hi
        simp at hi
      rw [hstep, if_neg hzero_ne]
      obtain ⟨hreg', e, ⟨i, hi, hie⟩, hev'⟩ := ih (seen ++ [a]) _
        (by simpa [List.append_assoc] using hperm) hfail'
        (ssGood_step st₀ resolve slaves seen a σ as
          ⟨hpend, hreg, hev, hres⟩ hra)
      exact ⟨hreg', e, ⟨i, List.mem_cons_of_mem a hi, hie⟩, hev'⟩

lemma runSetSlaves_pos (st₀ : ServerState) (inputs : List SlaveInput)
    (resolve : Str → Except Nat (List Str)) (hasCb : Bool)
    (order : List Nat) (hn : (expandAll inputs).length ≠ 0) :
    runSetSlaves st₀ inputs resolve hasCb order =
      order.foldl (ssStep hasCb resolve (expandAll inputs))
        { pending := ((expandAll inputs).length : Int),
          resolved := fun _ => none, registry := st₀, events := [] } := by
  unfold runSetSlaves
  dsimp only
  rw [if_neg (by simpa using hn)]

lemma runSetSlaves_zero (st₀ : ServerState) (inputs : List SlaveInput)
    (resolve : Str → Except Nat (List Str)) (hasCb : Bool)
    (hn : (expandAll inputs).length = 0) :
    runSetSlaves st₀ inputs resolve hasCb [] =
      ssComplete hasCb (expandAll inputs)
        { pending := 0, resolved := fun _ => none,
          registry := st₀, events := [] } := by
  unfold runSetSlaves
  dsimp only
  rw [hn]
  rw [if_pos (by simp)]
  rfl

/-- C3: a `setSlaves` call, whatever order the lookups complete in: if any
single lookup fails, neither the slave list nor the index is modified (no
partial update) and exactly one error of a failing entry is delivered (to
the callback when given, else as an error event); only when all lookups
succeed are the slave list and the rebuilt index committed together. -/
theorem C3_setSlaves_atomic (st₀ : ServerState) (inputs : List SlaveInput)
    (resolve : Str → Except Nat (List Str)) (hasCb : Bool) (order : List Nat)
    (hperm : order.Perm (List.range (expandAll inputs).length)) :
    ((∃ i, i < (expandAll inputs).length ∧ ∃ e,
        resolve ((expandAll inputs).getD i default).host = Except.error e) →
      (runSetSlaves st₀ inputs resolve hasCb order).registry = st₀ ∧
      ∃ e, (∃ i, i < (expandAll inputs).length ∧
          resolve ((expandAll inputs).getD i default).host = Except.error e) ∧
        (runSetSlaves st₀ inputs resolve hasCb order).events =
          [deliverError hasCb e]) ∧
    ((∀ i, i < (expandAll inputs).length → ∃ as,
        resolve ((expandAll inputs).getD i default).host = Except.ok as) →
      (runSetSlaves st₀ inputs resolve hasCb order).registry =
        { slaves := committedSlaves inputs resolve,
          slavesByIp := buildIndex (committedSlaves inputs resolve) } ∧
      (runSetSlaves st₀ inputs resolve hasCb order).events =
        if hasCb then [SSEvent.cbCalled none] else []) := by
  rcases Nat.eq_zero_or_pos (expandAll inputs).length with hn0 | hnpos
  · have horder : order = [] := by
      have h := hperm
      rw [hn0] at h
      simpa using h
    subst horder
    constructor
    · rintro ⟨i, hi, -⟩
      exact absurd hi (by omega)
    · intro _
      rw [runSetSlaves_zero st₀ inputs resolve hasCb hn0]
      constructor
      · apply ssComplete_registry hasCb resolve
        intro i hi
        exact absurd hi (by omega)
      · rw [ssComplete_events]
        rfl
  · have hn : (expandAll inputs).length ≠ 0 := by omega
    have hgood : ssGood st₀ resolve (expandAll inputs) []
        { pending := ((expandAll inputs).length : Int),
          resolved := fun _ => none, registry := st₀, events := [] } := by
      exact ⟨by simp, rfl, rfl, by intro k; simp⟩
    rw [runSetSlaves_pos st₀ inputs resolve hasCb order hn]
    constructor
    · rintro ⟨i, hi, e, hie⟩
      have hiord : i ∈ order := hperm.mem_iff.mpr (List.mem_range.mpr hi)
      obtain ⟨hreg, e', ⟨j, hj, hje⟩, hev⟩ :=
        ss_run_err hasCb resolve (expandAll inputs) st₀ order [] _
          (by simpa using hperm) ⟨i, hiord, e, hie⟩ hgood
      refine ⟨hreg, e', ⟨j, ?_, hje⟩, hev⟩
      have hjr : j ∈ List.range (expandAll inputs).length := hperm.mem_iff.mp hj
      simpa [List.mem_range] using hjr
    · intro hok
      have hres := ss_run_ok hasCb resolve (expandAll inputs) st₀ order [] _
        (by simpa using hperm) hok (by simpa using hnpos) hgood
      exact hres

def inputsW : List SlaveInput := [SlaveInput.str "h@1234".data]

def resolveOkW : Str → Except Nat (List Str) := fun h =>
  if h = "h".data then Except.ok ["a".data] else Except.error 1

def resolveErrW : Str → Except Nat (List Str) := fun _ => Except.error 7

theorem C3_setSlaves_atomic_witness :
    (runSetSlaves initialServerState inputsW resolveOkW true [0]).registry =
      { slaves := committedSlaves inputsW resolveOkW,
        slavesByIp := buildIndex (committedSlaves inputsW resolveOkW) } ∧
    (runSetSlaves initialServerState inputsW resolveErrW true [0]).registry =
      initialServerState := by
  constructor
  · refine ((C3_setSlaves_atomic initialServerState inputsW resolveOkW true [0]
      (by decide)).2 ?_).1
    intro i hi
    have h0 : i = 0 := by
      simp [inputsW, expandAll] at hi
      omega
    subst h0
    exact ⟨["a".data], rfl⟩
  · refine ((C3_setSlaves_atomic initialServerState inputsW resolveErrW true [0]
      (by decide)).1 ?_).1
    exact ⟨0, by decide, 7, rfl⟩

theorem C10_response_id_qr_witness :
    soaResponse reqSOA_W 7 ∈
      writtenOf (handleRequest pW reqSOA_W (SoaOutcome.ok (7 : Nat)) ⟨[], none⟩) ∧
    (soaResponse reqSOA_W 7).header.id = reqSOA_W.header.id ∧
    (soaResponse reqSOA_W 7).header.qr = 1 :=
  ⟨by decide,
    C10_response_id_qr pW reqSOA_W (SoaOutcome.ok 7) ⟨[], none⟩
      (soaResponse reqSOA_W 7) (by decide)⟩

end Zonemaster
